import Mathlib

/-!
Shallow embedding of `src/app/__init__.py` (a small Flask front-end for a
document-management API) and proofs about its request/response contract.

Strings that travel through URLs are modelled as lists of byte values
(`List Nat`, each `< 256`, the UTF-8 encoding Python works on inside
`urllib.parse.quote`).  Header values and message-table entries stay as
Lean `String`s.  Fallible Python code (dictionary indexing, attribute
access on the wrong type) is modelled with `Option`: `none` stands for an
uncaught exception.
-/

namespace EcpPage

/-! ## JSON values (the upstream payload as parsed by `request.json()`) -/

inductive Json where
  | null
  | str (s : String)
  | num (n : Int)
  | boolean (b : Bool)
  | obj (fields : List (String × Json))
  | arr (items : List Json)

/-- Python `d[key]` / `d.get(key)` on a parsed JSON value: only objects
support key lookup, anything else raises (`none`). -/
def Json.get? : Json → String → Option Json
  | .obj fields, key => fields.lookup key
  | _, _ => none

/-! ## `get_user_language` (lines 103-105) and the `[:2]` truncation (line 137)

Python `str.split(sep)` and `str[:2]` are modelled character-wise. -/

/-- Python `s.split(sep)` for a one-character separator: split on every
occurrence, never collapsing, always returning at least one segment. -/
def splitCharAux (sep : Char) : List Char → List Char → List (List Char)
  | [], acc => [acc.reverse]
  | c :: rest, acc =>
    if c = sep then acc.reverse :: splitCharAux sep rest []
    else splitCharAux sep rest (c :: acc)

def pySplit (sep : Char) (s : String) : List String :=
  (splitCharAux sep s.data []).map List.asString

/-- Python `s[:2]`. -/
def pyTake2 (s : String) : String := List.asString (s.data.take 2)

/-- `get_user_language`: `inc_req.headers.get('Accept-Language', 'en').split(',')[0]`.
The header is `none` when absent from the request. -/
def get_user_language (acceptLanguage : Option String) : String :=
  (pySplit ',' (acceptLanguage.getD "en")).headD ""

/-! ## `get_error_messages` (lines 108-129) -/

/-- The hardcoded message table, exactly as in the source. -/
def messages : List (Int × List (String × String)) :=
  [ (400, [("en", "Invalid or missing query parameters: `type` and `ref` are required."),
           ("ru", "Некорректные или отсутствующие параметры запроса: `type` и `ref` обязательны.")]),
    (404, [("en", "Document not found"),
           ("ru", "Документ не найден")]),
    (409, [("en", "Document not signed"),
           ("ru", "Документ не подписан")]),
    (500, [("en", "Service is unavailable"),
           ("ru", "Сервис недоступен")]) ]

/-- `get_error_messages(error_code, lang)`.  Dictionary indexing
(`messages[500]`, `messages[error_code]`) would raise on a missing key, so
it is modelled with `Option`; `.get(lang, 'en')` is `lookup` with the
literal default string `'en'`, exactly as in the source. -/
def get_error_messages (error_code : Int) (lang : String) : Option String :=
  if (messages.lookup error_code).isNone then
    (messages.lookup 500).map (fun table => (table.lookup lang).getD "en")
  else
    (messages.lookup error_code).map (fun table => (table.lookup lang).getD "en")

/-! ## `urllib.parse.quote` / `unquote` (line 6, 142-144)

`quote` percent-encodes the UTF-8 bytes of its argument, leaving the
always-safe bytes (ASCII letters, digits, `_`, `.`, `-`, `~`) and the
default `safe='/'` character untouched; everything else becomes `%` and
two uppercase hex digits. -/

def alwaysSafe (b : Nat) : Bool :=
  decide (65 ≤ b ∧ b ≤ 90) || decide (97 ≤ b ∧ b ≤ 122) ||
  decide (48 ≤ b ∧ b ≤ 57) || decide (b = 95) || decide (b = 46) ||
  decide (b = 45) || decide (b = 126)

/-- A byte `quote` leaves as-is: always-safe, or the default `safe='/'`. -/
def safeByte (b : Nat) : Bool := alwaysSafe b || decide (b = 47)

/-- Uppercase hex digit of a nibble, as `quote` emits. -/
def hexUpper (n : Nat) : Nat := if n < 10 then 48 + n else 55 + n

def quoteByte (b : Nat) : List Nat :=
  if safeByte b then [b] else [37, hexUpper (b / 16), hexUpper (b % 16)]

/-- `urllib.parse.quote` with the default `safe='/'`, on UTF-8 bytes. -/
def quote : List Nat → List Nat
  | [] => []
  | b :: rest => quoteByte b ++ quote rest

/-- Value of a hex digit byte (upper or lower case), `none` otherwise. -/
def hexVal (c : Nat) : Option Nat :=
  if 48 ≤ c ∧ c ≤ 57 then some (c - 48)
  else if 65 ≤ c ∧ c ≤ 70 then some (c - 55)
  else if 97 ≤ c ∧ c ≤ 102 then some (c - 87)
  else none

/-- `urllib.parse.unquote` on bytes: decode every valid `%XX` sequence,
leave invalid ones literal. -/
def unquote : List Nat → List Nat
  | [] => []
  | c :: rest =>
    if c = 37 then
      match rest with
      | a :: b :: rest2 =>
        match hexVal a, hexVal b with
        | some x, some y => (16 * x + y) :: unquote rest2
        | _, _ => c :: unquote (a :: b :: rest2)
      | [] => [c]
      | [a] => c :: unquote [a]
    else c :: unquote rest
termination_by l => l.length
decreasing_by all_goals simp_arith

/-- ASCII bytes of a Lean string (used only on ASCII literals). -/
def asciiBytes (s : String) : List Nat := s.data.map Char.toNat

/-! ## The response mapper (`get_doc`, lines 159-210)

Each section extractor mirrors the dictionary accesses of the source;
any access that would raise turns the whole request into `none`. -/

/-- `document_data` (lines 163-169). `prepared_by` uses `.get('Подготовил', '')`. -/
structure DocumentData where
  document_name : Json
  document_number : Json
  registration_date : Json
  registered_by : Json
  prepared_by : Json

def extractDocumentData (dd : Json) : Option DocumentData := do
  let n ← dd.get? "Наименование"
  let num ← dd.get? "НомерДокумента"
  let rd ← dd.get? "ДатаРегистрации"
  let rb ← dd.get? "Зарегистрировал"
  pure { document_name := n, document_number := num, registration_date := rd,
         registered_by := rb, prepared_by := (dd.get? "Подготовил").getD (Json.str "") }

/-- `sign_data` (lines 173-184). -/
structure SignData where
  signed_by : Json
  sign_date : Json
  start_time : Json
  end_time : Json
  provider : Json
  receiver : Json
  open_key : Json

def extractSignData (sd : Json) : Option SignData := do
  let ok ← sd.get? "ОткрытыйКлюч"
  let sb ← sd.get? "УстановившийПодпись"
  let sdt ← sd.get? "ДатаПодписи"
  let st ← sd.get? "ДатаНачала"
  let et ← sd.get? "ДатаОкончания"
  let pr ← sd.get? "КемВыдан"
  let rc ← sd.get? "КомуВыдан"
  pure { signed_by := sb, sign_date := sdt, start_time := st, end_time := et,
         provider := pr, receiver := rc, open_key := ok }

/-- One `attached_files` record (lines 188-193). -/
structure FileData where
  name : Json
  sign_date : Json
  signed_by : Json
  attached_by : Json

def extractFileData (fd : Json) : Option FileData := do
  let n ← fd.get? "ПрикреплённыйФайл"
  let sd ← fd.get? "ДатаПодписи"
  let sb ← fd.get? "УстановившийПодпись"
  let ab ← fd.get? "ПрикрепившийФайл"
  pure { name := n, sign_date := sd, signed_by := sb, attached_by := ab }

/-- One `approvement_data` record (lines 198-204). -/
structure ApprovalData where
  role : Json
  name : Json
  sign_date : Json
  approvement_mark : Json
  comment : Json

def extractApproval (p : Json) : Option ApprovalData := do
  let r ← p.get? "Должность"
  let n ← p.get? "Исполнитель"
  let sd ← p.get? "ДатаИсполнения"
  let am ← p.get? "РезультатСогласования"
  let c ← p.get? "РезультатВыполнения"
  pure { role := r, name := n, sign_date := sd, approvement_mark := am, comment := c }

/-- `qr_data` (lines 205-209). -/
structure QrData where
  qr_binary : Json
  qr_link : Json

def extractQr (q : Json) : Option QrData := do
  let b ← q.get? "ДвоичныеДанныеQRКода"
  let l ← q.get? "ОригиналСсылки"
  pure { qr_binary := b, qr_link := l }

/-- Sequential traversal of a list, failing at the first element the body
raises on — the shape of the `for` loops in the source. -/
def mapOption {α β : Type} (f : α → Option β) : List α → Option (List β)
  | [] => some []
  | a :: rest => do
    let b ← f a
    let bs ← mapOption f rest
    pure (b :: bs)

/-- Python `enumerate` starting at `i`. -/
def enumFrom {β : Type} (i : Nat) : List β → List (Nat × β)
  | [] => []
  | b :: rest => (i, b) :: enumFrom (i + 1) rest

/-- `request_data['ДанныеФайлов'].items()` loop (lines 185-194): requires a
dict, keeps every original key. -/
def extractFiles : Json → Option (List (String × FileData))
  | .obj fields =>
    mapOption (fun kv => (extractFileData kv.2).map (fun f => (kv.1, f))) fields
  | _ => none

/-- `enumerate(request_data['ДанныеВизСогласования'])` loop (lines 195-204):
a JSON array is re-indexed 0..N-1; iterating an empty dict or empty string
also runs the loop zero times; any other value raises inside the loop
(string indexing of a non-dict element). -/
def extractApprovals : Json → Option (List (Nat × ApprovalData))
  | .arr items => (mapOption extractApproval items).map (enumFrom 0)
  | .obj [] => some []
  | .str "" => some []
  | _ => none

/-- The presentation model handed to `render_template` (the dynamically
shaped `data` dict): a field is `some` exactly when the key is present. -/
structure PresentationModel where
  document_data : Option DocumentData
  sign_data : Option SignData
  attached_files : Option (List (String × FileData))
  approvement_data : Option (List (Nat × ApprovalData))
  qr_data : Option QrData

/-- An optional section: absent key means the key is skipped, a present
key is extracted (and may raise). -/
def optSection {α : Type} (j : Option Json) (f : Json → Option α) : Option (Option α) :=
  match j with
  | none => some none
  | some v => (f v).map some

/-- Lines 159-210: from the parsed upstream payload to the `data` dict. -/
def mapPayload (rd : Json) : Option PresentationModel := do
  let dd ← rd.get? "ДанныеДокумента"
  let docData ← extractDocumentData dd
  let signData ← optSection (rd.get? "ДанныеПодписи") extractSignData
  let files ← optSection (rd.get? "ДанныеФайлов") extractFiles
  let approvals ← optSection (rd.get? "ДанныеВизСогласования") extractApprovals
  let qr ← optSection (rd.get? "ДанныеQR") extractQr
  pure { document_data := some docData, sign_data := signData,
         attached_files := files, approvement_data := approvals, qr_data := qr }

/-! ## The request handler `get_doc` (lines 132-210) -/

/-- What the single outbound `requests.request('GET', ...)` call yields. -/
inductive UpstreamResult where
  | connectionError
  | response (status_code : Int) (body : Json)

/-- Outcome of one request: a rendered page with its status, a raised
`CustomError` (status, message, lang, error code), or an uncaught
exception. -/
inductive HandlerResult where
  | page (model : PresentationModel) (status_code : Int)
  | error (status_code : Int) (message : String) (lang : String) (error_code : Int)
  | crash

/-- `raise CustomError(code, get_error_messages(code, lang), lang, code)`. -/
def raiseCustomError (code : Int) (lang : String) : HandlerResult :=
  match get_error_messages code lang with
  | some msg => .error code msg lang code
  | none => .crash

/-- Python falsiness of `inc_req.args.get(...)`: missing or empty string. -/
def isBlank : Option (List Nat) → Bool
  | none => true
  | some [] => true
  | some (_ :: _) => false

/-- `get_doc`: validation, outbound call, status check, mapping.  Query
parameter values are byte strings; `upstream` is the outcome the outbound
call would have. -/
def get_doc (doc_type ref_type : Option (List Nat)) (acceptLanguage : Option String)
    (upstream : UpstreamResult) : HandlerResult :=
  let preferred_language := pyTake2 (get_user_language acceptLanguage)
  if isBlank doc_type || isBlank ref_type then
    raiseCustomError 400 preferred_language
  else
    match upstream with
    | .connectionError => raiseCustomError 500 preferred_language
    | .response st body =>
      if st ≠ 200 then raiseCustomError st preferred_language
      else
        match mapPayload body with
        | some m => .page m 200
        | none => .crash

/-- Line 144: `f'{req_base_url}?type={cor_doc_type}&ref={cor_ref_type}'`. -/
def fullReqUrl (base doc_type ref_type : List Nat) : List Nat :=
  base ++ asciiBytes "?type=" ++ quote doc_type ++ asciiBytes "&ref=" ++ quote ref_type

/-! ## Concrete payloads used to instantiate the theorems -/

def sampleDocSection : Json :=
  Json.obj [("Наименование", Json.str "Договор поставки"),
            ("НомерДокумента", Json.str "A-42"),
            ("ДатаРегистрации", Json.str "2024-05-01"),
            ("Зарегистрировал", Json.str "Иванов И.И.")]

def samplePayloadDocQr : Json :=
  Json.obj [("ДанныеДокумента", sampleDocSection),
            ("ДанныеQR", Json.obj [("ДвоичныеДанныеQRКода", Json.str "iVBOR"),
                                   ("ОригиналСсылки", Json.str "https://example.org/doc")])]

def sampleModelDocQr : PresentationModel where
  document_data := some
    { document_name := Json.str "Договор поставки"
      document_number := Json.str "A-42"
      registration_date := Json.str "2024-05-01"
      registered_by := Json.str "Иванов И.И."
      prepared_by := Json.str "" }
  sign_data := none
  attached_files := none
  approvement_data := none
  qr_data := some { qr_binary := Json.str "iVBOR", qr_link := Json.str "https://example.org/doc" }

def samplePayloadApprovals : Json :=
  Json.obj [("ДанныеДокумента", sampleDocSection),
            ("ДанныеВизСогласования", Json.arr
              [Json.obj [("Должность", Json.str "Директор"),
                         ("Исполнитель", Json.str "Петров"),
                         ("ДатаИсполнения", Json.str "2024-05-02"),
                         ("РезультатСогласования", Json.str "Согласовано"),
                         ("РезультатВыполнения", Json.str "")],
               Json.obj [("Должность", Json.str "Бухгалтер"),
                         ("Исполнитель", Json.str "Сидорова"),
                         ("ДатаИсполнения", Json.str "2024-05-03"),
                         ("РезультатСогласования", Json.str "Согласовано"),
                         ("РезультатВыполнения", Json.str "Без замечаний")]])]

def sampleModelApprovals : PresentationModel where
  document_data := some
    { document_name := Json.str "Договор поставки"
      document_number := Json.str "A-42"
      registration_date := Json.str "2024-05-01"
      registered_by := Json.str "Иванов И.И."
      prepared_by := Json.str "" }
  sign_data := none
  attached_files := none
  approvement_data := some
    [(0, { role := Json.str "Директор", name := Json.str "Петров",
           sign_date := Json.str "2024-05-02",
           approvement_mark := Json.str "Согласовано", comment := Json.str "" }),
     (1, { role := Json.str "Бухгалтер", name := Json.str "Сидорова",
           sign_date := Json.str "2024-05-03",
           approvement_mark := Json.str "Согласовано",
           comment := Json.str "Без замечаний" })]
  qr_data := none

/-! ## Lemmas about `quote` and `unquote` -/

theorem safeByte_37 : safeByte 37 = false := by decide

theorem unquote_nil : unquote [] = [] := by
  simp [unquote]

theorem unquote_cons_ne (c : Nat) (l : List Nat) (h : c ≠ 37) :
    unquote (c :: l) = c :: unquote l := by
  cases l with
  | nil => simp [unquote, h]
  | cons a t => cases t <;> simp [unquote, h]

theorem unquote_percent (a b x y : Nat) (l : List Nat)
    (ha : hexVal a = some x) (hb : hexVal b = some y) :
    unquote (37 :: a :: b :: l) = (16 * x + y) :: unquote l := by
  simp [unquote, ha, hb]

theorem hexVal_hexUpper (n : Nat) (h : n < 16) : hexVal (hexUpper n) = some n := by
  interval_cases n <;> rfl

theorem unquote_quoteByte (b : Nat) (hb : b < 256) (t : List Nat) :
    unquote (quoteByte b ++ t) = b :: unquote t := by
  cases hs : safeByte b with
  | true =>
      have h37 : b ≠ 37 := by
        intro h
        rw [h, safeByte_37] at hs
        cases hs
      simp only [quoteByte, hs, if_pos, List.singleton_append]
      rw [unquote_cons_ne _ _ h37]
  | false =>
      simp only [quoteByte, hs, Bool.false_eq_true, if_neg, not_false_iff,
        List.cons_append, List.nil_append]
      rw [unquote_percent _ _ _ _ _ (hexVal_hexUpper _ (by omega))
        (hexVal_hexUpper _ (by omega))]
      congr 1
      omega

theorem unquote_quote (s : List Nat) (hs : ∀ b ∈ s, b < 256) :
    unquote (quote s) = s := by
  induction s with
  | nil => exact unquote_nil
  | cons b rest ih =>
      show unquote (quoteByte b ++ quote rest) = b :: rest
      rw [unquote_quoteByte b (hs b (List.mem_cons_self _ _)) (quote rest),
        ih (fun x hx => hs x (List.mem_cons_of_mem _ hx))]

/-! ## Lemmas about `get_error_messages` -/

theorem get_error_messages_known_total (code : Int) (table : List (String × String))
    (lang : String) (h : messages.lookup code = some table) :
    get_error_messages code lang = some ((table.lookup lang).getD "en") := by
  simp [get_error_messages, h]

theorem lookup_messages_none (code : Int)
    (h4 : code ≠ 400) (h44 : code ≠ 404) (h49 : code ≠ 409) (h5 : code ≠ 500) :
    messages.lookup code = none := by
  have e1 : (code == (400 : Int)) = false := by simp [h4]
  have e2 : (code == (404 : Int)) = false := by simp [h44]
  have e3 : (code == (409 : Int)) = false := by simp [h49]
  have e4 : (code == (500 : Int)) = false := by simp [h5]
  simp [messages, List.lookup, e1, e2, e3, e4]

theorem messages_lookup_500 : messages.lookup (500 : Int) =
    some [("en", "Service is unavailable"), ("ru", "Сервис недоступен")] := by rfl

theorem get_error_messages_unknown (code : Int) (lang : String)
    (h4 : code ≠ 400) (h44 : code ≠ 404) (h49 : code ≠ 409) (h5 : code ≠ 500) :
    get_error_messages code lang = get_error_messages 500 lang := by
  have hl := lookup_messages_none code h4 h44 h49 h5
  simp [get_error_messages, hl, messages_lookup_500]

theorem get_error_messages_total (code : Int) (lang : String) :
    ∃ m, get_error_messages code lang = some m := by
  cases h : messages.lookup code with
  | none =>
      refine ⟨((([("en", "Service is unavailable"), ("ru", "Сервис недоступен")] :
        List (String × String)).lookup lang)).getD "en", ?_⟩
      simp [get_error_messages, h, messages_lookup_500]
  | some table =>
      exact ⟨(table.lookup lang).getD "en", get_error_messages_known_total code table lang h⟩

theorem messages_lookup_400 : messages.lookup (400 : Int) =
    some [("en", "Invalid or missing query parameters: `type` and `ref` are required."),
          ("ru", "Некорректные или отсутствующие параметры запроса: `type` и `ref` обязательны.")] := by
  rfl

/-! ## Lemmas about `pySplit` -/

theorem splitCharAux_cons_ne (sep c : Char) (l acc : List Char) (h : c ≠ sep) :
    splitCharAux sep (c :: l) acc = splitCharAux sep l (c :: acc) := by
  simp [splitCharAux, h]

theorem splitCharAux_cons_sep (sep : Char) (l acc : List Char) :
    splitCharAux sep (sep :: l) acc = acc.reverse :: splitCharAux sep l [] := by
  simp [splitCharAux]

theorem splitCharAux_append_sep (sep : Char) (xs : List Char) (h : sep ∉ xs) :
    ∀ (acc ys : List Char), splitCharAux sep (xs ++ sep :: ys) acc =
      (acc.reverse ++ xs) :: splitCharAux sep ys [] := by
  induction xs with
  | nil =>
      intro acc ys
      rw [List.nil_append, splitCharAux_cons_sep]
      simp
  | cons c rest ih =>
      intro acc ys
      have hc : c ≠ sep := fun he => h (he ▸ List.mem_cons_self _ _)
      have hrest : sep ∉ rest := fun hm => h (List.mem_cons_of_mem _ hm)
      rw [List.cons_append, splitCharAux_cons_ne sep c _ _ hc, ih hrest (c :: acc) ys]
      simp

theorem splitCharAux_no_sep (sep : Char) (xs : List Char) (h : sep ∉ xs) :
    ∀ acc : List Char, splitCharAux sep xs acc = [acc.reverse ++ xs] := by
  induction xs with
  | nil => intro acc; simp [splitCharAux]
  | cons c rest ih =>
      intro acc
      have hc : c ≠ sep := fun he => h (he ▸ List.mem_cons_self _ _)
      have hrest : sep ∉ rest := fun hm => h (List.mem_cons_of_mem _ hm)
      rw [splitCharAux_cons_ne sep c _ _ hc, ih hrest (c :: acc)]
      simp

/-! ## Inversion lemmas for the section extractors -/

theorem extractDocumentData_inv (dd : Json) (r : DocumentData)
    (h : extractDocumentData dd = some r) :
    dd.get? "Наименование" = some r.document_name ∧
    dd.get? "НомерДокумента" = some r.document_number ∧
    dd.get? "ДатаРегистрации" = some r.registration_date ∧
    dd.get? "Зарегистрировал" = some r.registered_by ∧
    r.prepared_by = (dd.get? "Подготовил").getD (Json.str "") := by
  simp only [extractDocumentData, Option.bind_eq_bind, Option.bind_eq_some,
    Option.pure_def, Option.some.injEq] at h
  obtain ⟨n, hn, num, hnum, rd, hrd, rb, hrb, hr⟩ := h
  subst hr
  exact ⟨hn, hnum, hrd, hrb, rfl⟩

theorem extractSignData_inv (sd : Json) (s : SignData)
    (h : extractSignData sd = some s) :
    sd.get? "УстановившийПодпись" = some s.signed_by ∧
    sd.get? "ДатаПодписи" = some s.sign_date ∧
    sd.get? "ДатаНачала" = some s.start_time ∧
    sd.get? "ДатаОкончания" = some s.end_time ∧
    sd.get? "КемВыдан" = some s.provider ∧
    sd.get? "КомуВыдан" = some s.receiver ∧
    sd.get? "ОткрытыйКлюч" = some s.open_key := by
  simp only [extractSignData, Option.bind_eq_bind, Option.bind_eq_some,
    Option.pure_def, Option.some.injEq] at h
  obtain ⟨ok, hok, sb, hsb, sdt, hsdt, st, hst, et, het, pr, hpr, rc, hrc, hs⟩ := h
  subst hs
  exact ⟨hsb, hsdt, hst, het, hpr, hrc, hok⟩

theorem extractFileData_inv (fd : Json) (f : FileData)
    (h : extractFileData fd = some f) :
    fd.get? "ПрикреплённыйФайл" = some f.name ∧
    fd.get? "ДатаПодписи" = some f.sign_date ∧
    fd.get? "УстановившийПодпись" = some f.signed_by ∧
    fd.get? "ПрикрепившийФайл" = some f.attached_by := by
  simp only [extractFileData, Option.bind_eq_bind, Option.bind_eq_some,
    Option.pure_def, Option.some.injEq] at h
  obtain ⟨n, hn, sd, hsd, sb, hsb, ab, hab, hf⟩ := h
  subst hf
  exact ⟨hn, hsd, hsb, hab⟩

theorem extractApproval_inv (p : Json) (a : ApprovalData)
    (h : extractApproval p = some a) :
    p.get? "Должность" = some a.role ∧
    p.get? "Исполнитель" = some a.name ∧
    p.get? "ДатаИсполнения" = some a.sign_date ∧
    p.get? "РезультатСогласования" = some a.approvement_mark ∧
    p.get? "РезультатВыполнения" = some a.comment := by
  simp only [extractApproval, Option.bind_eq_bind, Option.bind_eq_some,
    Option.pure_def, Option.some.injEq] at h
  obtain ⟨r, hr, n, hn, sd, hsd, am, ham, c, hc, ha⟩ := h
  subst ha
  exact ⟨hr, hn, hsd, ham, hc⟩

theorem extractQr_inv (q : Json) (x : QrData) (h : extractQr q = some x) :
    q.get? "ДвоичныеДанныеQRКода" = some x.qr_binary ∧
    q.get? "ОригиналСсылки" = some x.qr_link := by
  simp only [extractQr, Option.bind_eq_bind, Option.bind_eq_some,
    Option.pure_def, Option.some.injEq] at h
  obtain ⟨b, hb, l, hl, hx⟩ := h
  subst hx
  exact ⟨hb, hl⟩

/-! ## Lemmas about `optSection`, `mapOption` and `enumFrom` -/

theorem optSection_none_inv {α : Type} (f : Json → Option α) (o : Option α)
    (h : optSection none f = some o) : o = none := by
  simp only [optSection, Option.some.injEq] at h
  exact h.symm

theorem optSection_some_inv {α : Type} (v : Json) (f : Json → Option α) (o : Option α)
    (h : optSection (some v) f = some o) : ∃ a, f v = some a ∧ o = some a := by
  simp only [optSection, Option.map_eq_some'] at h
  obtain ⟨a, ha, ho⟩ := h
  exact ⟨a, ha, ho.symm⟩

theorem optSection_isSome {α : Type} (j : Option Json) (f : Json → Option α)
    (o : Option α) (h : optSection j f = some o) : o.isSome = j.isSome := by
  cases j with
  | none => rw [optSection_none_inv f o h]; rfl
  | some v =>
      obtain ⟨a, _, ho⟩ := optSection_some_inv v f o h
      rw [ho]; rfl

theorem mapOption_length {α β : Type} (f : α → Option β) :
    ∀ (l : List α) (l2 : List β), mapOption f l = some l2 → l2.length = l.length := by
  intro l
  induction l with
  | nil =>
      intro l2 h
      simp only [mapOption, Option.some.injEq] at h
      subst h; rfl
  | cons a rest ih =>
      intro l2 h
      simp only [mapOption, Option.bind_eq_bind, Option.bind_eq_some,
        Option.pure_def, Option.some.injEq] at h
      obtain ⟨b, _, bs, hbs, hl2⟩ := h
      subst hl2
      simp [ih bs hbs]

theorem mapOption_get {α β : Type} (f : α → Option β) :
    ∀ (l : List α) (l2 : List β), mapOption f l = some l2 →
      ∀ (j : Nat) (hj : j < l.length) (hj2 : j < l2.length),
        f (l.get ⟨j, hj⟩) = some (l2.get ⟨j, hj2⟩) := by
  intro l
  induction l with
  | nil => intro l2 h j hj; exact absurd hj (by simp)
  | cons a rest ih =>
      intro l2 h j hj hj2
      simp only [mapOption, Option.bind_eq_bind, Option.bind_eq_some,
        Option.pure_def, Option.some.injEq] at h
      obtain ⟨b, hb, bs, hbs, hl2⟩ := h
      subst hl2
      cases j with
      | zero => exact hb
      | succ k =>
          exact ih bs hbs k (Nat.lt_of_succ_lt_succ hj) (Nat.lt_of_succ_lt_succ hj2)

theorem mapOption_mem {α β : Type} (f : α → Option β) :
    ∀ (l : List α) (l2 : List β), mapOption f l = some l2 →
      ∀ b ∈ l2, ∃ a ∈ l, f a = some b := by
  intro l
  induction l with
  | nil =>
      intro l2 h b hb
      simp only [mapOption, Option.some.injEq] at h
      subst h; simp at hb
  | cons a rest ih =>
      intro l2 h b hb
      simp only [mapOption, Option.bind_eq_bind, Option.bind_eq_some,
        Option.pure_def, Option.some.injEq] at h
      obtain ⟨b0, hb0, bs, hbs, hl2⟩ := h
      subst hl2
      rcases List.mem_cons.mp hb with hb | hb
      · exact ⟨a, List.mem_cons_self _ _, hb ▸ hb0⟩
      · obtain ⟨a2, ha2, hfa2⟩ := ih bs hbs b hb
        exact ⟨a2, List.mem_cons_of_mem _ ha2, hfa2⟩

theorem enumFrom_length {β : Type} : ∀ (i : Nat) (l : List β),
    (enumFrom i l).length = l.length := by
  intro i l
  induction l generalizing i with
  | nil => rfl
  | cons b rest ih => simp [enumFrom, ih]

theorem enumFrom_map_fst {β : Type} : ∀ (i : Nat) (l : List β),
    (enumFrom i l).map Prod.fst = List.range' i l.length := by
  intro i l
  induction l generalizing i with
  | nil => rfl
  | cons b rest ih => simp [enumFrom, List.range', ih]

theorem enumFrom_get {β : Type} : ∀ (i : Nat) (l : List β) (j : Nat)
    (hj : j < (enumFrom i l).length) (hj2 : j < l.length),
    (enumFrom i l).get ⟨j, hj⟩ = (i + j, l.get ⟨j, hj2⟩) := by
  intro i l
  induction l generalizing i with
  | nil => intro j hj hj2; exact absurd hj2 (by simp)
  | cons b rest ih =>
      intro j hj hj2
      cases j with
      | zero => simp [enumFrom]
      | succ k =>
          have hk : k < (enumFrom (i + 1) rest).length := by
            rw [enumFrom_length]; exact Nat.lt_of_succ_lt_succ hj2
          show (enumFrom (i + 1) rest).get ⟨k, hk⟩ = _
          rw [ih (i + 1) k hk (Nat.lt_of_succ_lt_succ hj2)]
          simp [Nat.add_assoc, Nat.add_comm 1 k]

theorem enumFrom_mem_inv {β : Type} : ∀ (i : Nat) (l : List β) (p : Nat × β),
    p ∈ enumFrom i l → p.2 ∈ l := by
  intro i l
  induction l generalizing i with
  | nil => intro p hp; simp [enumFrom] at hp
  | cons b rest ih =>
      intro p hp
      rcases List.mem_cons.mp hp with hp | hp
      · subst hp; exact List.mem_cons_self _ _
      · exact List.mem_cons_of_mem _ (ih (i + 1) p hp)

/-! ## Inversion of `mapPayload` -/

theorem mapPayload_inv (rd : Json) (m : PresentationModel)
    (h : mapPayload rd = some m) :
    ∃ dd docData,
      rd.get? "ДанныеДокумента" = some dd ∧
      extractDocumentData dd = some docData ∧
      m.document_data = some docData ∧
      optSection (rd.get? "ДанныеПодписи") extractSignData = some m.sign_data ∧
      optSection (rd.get? "ДанныеФайлов") extractFiles = some m.attached_files ∧
      optSection (rd.get? "ДанныеВизСогласования") extractApprovals =
        some m.approvement_data ∧
      optSection (rd.get? "ДанныеQR") extractQr = some m.qr_data := by
  simp only [mapPayload, Option.bind_eq_bind, Option.bind_eq_some,
    Option.pure_def, Option.some.injEq] at h
  obtain ⟨dd, hdd, docData, hdoc, sd, hsd, fl, hfl, ap, hap, qr, hqr, hm⟩ := h
  subst hm
  exact ⟨dd, docData, hdd, hdoc, rfl, hsd, hfl, hap, hqr⟩

/-! ## Claim theorems -/

/-- C1. The spec says an unsupported locale falls back to the English
message text; the code's `.get(lang, 'en')` instead returns the literal
string `'en'` for every error code, which is not any message text.
Evaluation of the embedded lookup at the failing inputs. -/
theorem c1_unsupported_locale_returns_literal_en :
    get_error_messages 400 "fr" = some "en" ∧
    get_error_messages 404 "fr" = some "en" ∧
    get_error_messages 409 "fr" = some "en" ∧
    get_error_messages 500 "fr" = some "en" ∧
    "en" ≠ "Invalid or missing query parameters: `type` and `ref` are required." ∧
    "en" ≠ "Document not found" ∧
    "en" ≠ "Document not signed" ∧
    "en" ≠ "Service is unavailable" := by
  refine ⟨rfl, rfl, rfl, rfl, ?_, ?_, ?_, ?_⟩ <;> decide

/-- C2, counterexample. The claim says `A/B` is encoded as `A%2FB`;
`urllib.parse.quote` keeps `/` in its default safe set, so the encoding of
`A/B` is `A/B` itself, which differs from `A%2FB`. -/
theorem c2_slash_left_unencoded :
    quote (asciiBytes "A/B") = asciiBytes "A/B" ∧
    asciiBytes "A/B" ≠ asciiBytes "A%2FB" := by
  refine ⟨rfl, ?_⟩
  decide

/-- C2, amended. For every byte string, upstream-side percent-decoding of
the outbound percent-encoding recovers the original value; the slash is
kept literal (it is in `quote`'s default safe set), so `A/B` is sent as
`A/B`, not `A%2FB`. -/
theorem c2_percent_encoding_round_trip (s : List Nat) (hs : ∀ b ∈ s, b < 256) :
    unquote (quote s) = s ∧ quote (asciiBytes "A/B") = asciiBytes "A/B" :=
  ⟨unquote_quote s hs, rfl⟩

theorem c2_percent_encoding_round_trip_witness :
    (∀ b ∈ asciiBytes "A&B", b < 256) ∧
      unquote (quote (asciiBytes "A&B")) = asciiBytes "A&B" :=
  ⟨by decide, (c2_percent_encoding_round_trip (asciiBytes "A&B") (by decide)).1⟩

/-- C3. A request with a missing or empty `type` or `ref` fails with a
`CustomError` carrying HTTP status 400 and error code 400, whatever the
upstream would have answered (so no outbound call can influence it), and
the message is the 400-table entry for the resolved locale. -/
theorem c3_missing_params_bad_request (doc_type ref_type : Option (List Nat))
    (al : Option String) (u : UpstreamResult)
    (h : isBlank doc_type = true ∨ isBlank ref_type = true) :
    ∃ msg, get_error_messages 400 (pyTake2 (get_user_language al)) = some msg ∧
      get_doc doc_type ref_type al u =
        HandlerResult.error 400 msg (pyTake2 (get_user_language al)) 400 ∧
      (pyTake2 (get_user_language al) = "en" →
        msg = "Invalid or missing query parameters: `type` and `ref` are required.") ∧
      (pyTake2 (get_user_language al) = "ru" →
        msg = "Некорректные или отсутствующие параметры запроса: `type` и `ref` обязательны.") := by
  have hmsg := get_error_messages_known_total 400 _
    (pyTake2 (get_user_language al)) messages_lookup_400
  refine ⟨_, hmsg, ?_, ?_, ?_⟩
  · have hcond : (isBlank doc_type || isBlank ref_type) = true := by
      rcases h with h | h <;> simp [h]
    simp [get_doc, hcond, raiseCustomError, hmsg]
  · intro he; rw [he]; rfl
  · intro hr; rw [hr]; rfl

theorem c3_missing_params_bad_request_witness :
    ∃ msg, get_error_messages 400 (pyTake2 (get_user_language none)) = some msg ∧
      get_doc none (some (asciiBytes "ref1")) none UpstreamResult.connectionError =
        HandlerResult.error 400 msg (pyTake2 (get_user_language none)) 400 ∧
      (pyTake2 (get_user_language none) = "en" →
        msg = "Invalid or missing query parameters: `type` and `ref` are required.") ∧
      (pyTake2 (get_user_language none) = "ru" →
        msg = "Некорректные или отсутствующие параметры запроса: `type` и `ref` обязательны.") :=
  c3_missing_params_bad_request none (some (asciiBytes "ref1")) none
    UpstreamResult.connectionError (Or.inl rfl)

/-- C7. When the outbound call raises a connection error, the handler
fails with `CustomError` status 500, error code 500, and the 500-table
("service is unavailable") message for the resolved locale. -/
theorem c7_connection_error_service_unavailable (doc_type ref_type : Option (List Nat))
    (al : Option String)
    (hd : isBlank doc_type = false) (hr : isBlank ref_type = false) :
    ∃ msg, get_error_messages 500 (pyTake2 (get_user_language al)) = some msg ∧
      get_doc doc_type ref_type al UpstreamResult.connectionError =
        HandlerResult.error 500 msg (pyTake2 (get_user_language al)) 500 ∧
      (pyTake2 (get_user_language al) = "en" → msg = "Service is unavailable") ∧
      (pyTake2 (get_user_language al) = "ru" → msg = "Сервис недоступен") := by
  have hmsg := get_error_messages_known_total 500 _
    (pyTake2 (get_user_language al)) messages_lookup_500
  refine ⟨_, hmsg, ?_, ?_, ?_⟩
  · simp [get_doc, hd, hr, raiseCustomError, hmsg]
  · intro he; rw [he]; rfl
  · intro hru; rw [hru]; rfl

theorem c7_connection_error_service_unavailable_witness :
    ∃ msg, get_error_messages 500 (pyTake2 (get_user_language none)) = some msg ∧
      get_doc (some (asciiBytes "doc")) (some (asciiBytes "ref1")) none
          UpstreamResult.connectionError =
        HandlerResult.error 500 msg (pyTake2 (get_user_language none)) 500 ∧
      (pyTake2 (get_user_language none) = "en" → msg = "Service is unavailable") ∧
      (pyTake2 (get_user_language none) = "ru" → msg = "Сервис недоступен") :=
  c7_connection_error_service_unavailable (some (asciiBytes "doc"))
    (some (asciiBytes "ref1")) none rfl rfl

/-- C4. A non-200 upstream response makes the handler fail with the
upstream status reproduced verbatim as both the HTTP status and the error
code; when that status is outside {400, 404, 409, 500}, the message lookup
is routed to the 500 message entry while the propagated status stays the
upstream's number. -/
theorem c4_upstream_status_mirrored (doc_type ref_type : Option (List Nat))
    (al : Option String) (st : Int) (body : Json)
    (hd : isBlank doc_type = false) (hr : isBlank ref_type = false) (hst : st ≠ 200) :
    ∃ msg, get_error_messages st (pyTake2 (get_user_language al)) = some msg ∧
      get_doc doc_type ref_type al (UpstreamResult.response st body) =
        HandlerResult.error st msg (pyTake2 (get_user_language al)) st ∧
      (st ≠ 400 → st ≠ 404 → st ≠ 409 → st ≠ 500 →
        get_error_messages st (pyTake2 (get_user_language al)) =
          get_error_messages 500 (pyTake2 (get_user_language al))) := by
  obtain ⟨msg, hmsg⟩ := get_error_messages_total st (pyTake2 (get_user_language al))
  refine ⟨msg, hmsg, ?_, ?_⟩
  · simp [get_doc, hd, hr, hst, raiseCustomError, hmsg]
  · intro h4 h44 h49 h5
    exact get_error_messages_unknown st _ h4 h44 h49 h5

theorem c4_upstream_status_mirrored_witness :
    ∃ msg, get_error_messages 418 (pyTake2 (get_user_language none)) = some msg ∧
      get_doc (some (asciiBytes "doc")) (some (asciiBytes "ref1")) none
          (UpstreamResult.response 418 (Json.obj [])) =
        HandlerResult.error 418 msg (pyTake2 (get_user_language none)) 418 ∧
      (418 ≠ (400 : Int) → 418 ≠ (404 : Int) → 418 ≠ (409 : Int) → 418 ≠ (500 : Int) →
        get_error_messages 418 (pyTake2 (get_user_language none)) =
          get_error_messages 500 (pyTake2 (get_user_language none))) :=
  c4_upstream_status_mirrored (some (asciiBytes "doc")) (some (asciiBytes "ref1"))
    none 418 (Json.obj []) rfl rfl (by decide)

/-- C9. The locale is the first two characters of the first
comma-separated segment of the `Accept-Language` header; an absent header
resolves to `en`; `ru-RU,en;q=0.9` resolves to `ru`. -/
theorem c9_locale_resolution :
    (∀ s1 s2 : List Char, ',' ∉ s1 →
      pyTake2 (get_user_language (some (List.asString (s1 ++ ',' :: s2)))) =
        List.asString (s1.take 2)) ∧
    (∀ s1 : List Char, ',' ∉ s1 →
      pyTake2 (get_user_language (some (List.asString s1))) =
        List.asString (s1.take 2)) ∧
    pyTake2 (get_user_language none) = "en" ∧
    pyTake2 (get_user_language (some "ru-RU,en;q=0.9")) = "ru" := by
  refine ⟨?_, ?_, rfl, rfl⟩
  · intro s1 s2 h
    simp [get_user_language, pySplit, pyTake2,
      splitCharAux_append_sep ',' s1 h [] s2, List.asString]
  · intro s1 h
    simp [get_user_language, pySplit, pyTake2, splitCharAux_no_sep ',' s1 h [],
      List.asString]

theorem c9_locale_resolution_witness :
    pyTake2 (get_user_language (some (List.asString
        (['r', 'u', '-', 'R', 'U'] ++ ',' :: ['e', 'n'])))) =
      List.asString ['r', 'u'] :=
  c9_locale_resolution.1 ['r', 'u', '-', 'R', 'U'] ['e', 'n'] (by decide)

/-- C10. The error-message lookup is total: any integer code with any
locale yields a message (unknown codes are routed to the 500 table, and
the locale lookup has a default), so the lookup itself never raises. -/
theorem c10_error_lookup_total :
    ∀ (code : Int) (lang : String), (get_error_messages code lang).isSome = true ∧
      (messages.lookup code = none →
        get_error_messages code lang = get_error_messages 500 lang) := by
  intro code lang
  constructor
  · obtain ⟨m, hm⟩ := get_error_messages_total code lang
    simp [hm]
  · intro hnone
    simp [get_error_messages, hnone, messages_lookup_500]

theorem c10_error_lookup_total_witness :
    (get_error_messages 402 "de").isSome = true ∧
      (messages.lookup 402 = none →
        get_error_messages 402 "de" = get_error_messages 500 "de") :=
  c10_error_lookup_total 402 "de"

/-- C5. Whenever the mapper produces a presentation model, each of the
five optional top-level keys is present exactly when the corresponding
upstream section key was present in the payload; the model has no other
keys by construction, and none are defaulted in. -/
theorem c5_model_keys_iff_sections (rd : Json) (m : PresentationModel)
    (h : mapPayload rd = some m) :
    (m.document_data.isSome ↔ (rd.get? "ДанныеДокумента").isSome) ∧
    (m.sign_data.isSome ↔ (rd.get? "ДанныеПодписи").isSome) ∧
    (m.attached_files.isSome ↔ (rd.get? "ДанныеФайлов").isSome) ∧
    (m.approvement_data.isSome ↔ (rd.get? "ДанныеВизСогласования").isSome) ∧
    (m.qr_data.isSome ↔ (rd.get? "ДанныеQR").isSome) := by
  obtain ⟨dd, docData, hdd, _, hmdoc, hsd, hfl, hap, hqr⟩ := mapPayload_inv rd m h
  refine ⟨?_, ?_, ?_, ?_, ?_⟩
  · simp [hmdoc, hdd]
  · rw [optSection_isSome _ _ _ hsd]
  · rw [optSection_isSome _ _ _ hfl]
  · rw [optSection_isSome _ _ _ hap]
  · rw [optSection_isSome _ _ _ hqr]

theorem c5_model_keys_iff_sections_witness :
    mapPayload samplePayloadDocQr = some sampleModelDocQr ∧
    ((sampleModelDocQr.document_data.isSome ↔
        (samplePayloadDocQr.get? "ДанныеДокумента").isSome) ∧
     (sampleModelDocQr.sign_data.isSome ↔
        (samplePayloadDocQr.get? "ДанныеПодписи").isSome) ∧
     (sampleModelDocQr.attached_files.isSome ↔
        (samplePayloadDocQr.get? "ДанныеФайлов").isSome) ∧
     (sampleModelDocQr.approvement_data.isSome ↔
        (samplePayloadDocQr.get? "ДанныеВизСогласования").isSome) ∧
     (sampleModelDocQr.qr_data.isSome ↔
        (samplePayloadDocQr.get? "ДанныеQR").isSome)) :=
  ⟨rfl, c5_model_keys_iff_sections samplePayloadDocQr sampleModelDocQr rfl⟩

/-- C6. If the approval section is absent the model has no
`approvement_data` key; if it is present as a list of N entries, the
mapping carries exactly the keys 0..N-1 in original order, key `i` holding
the five extracted fields of the i-th entry. -/
theorem c6_approval_reindexing (rd : Json) (m : PresentationModel)
    (h : mapPayload rd = some m) :
    ((rd.get? "ДанныеВизСогласования").isNone → m.approvement_data = none) ∧
    (∀ ps : List Json, rd.get? "ДанныеВизСогласования" = some (Json.arr ps) →
      ∃ es : List (Nat × ApprovalData), m.approvement_data = some es ∧
        es.map Prod.fst = List.range ps.length ∧
        ∀ (j : Nat) (hj : j < es.length) (hp : j < ps.length),
          (es.get ⟨j, hj⟩).1 = j ∧
          extractApproval (ps.get ⟨j, hp⟩) = some (es.get ⟨j, hj⟩).2) := by
  obtain ⟨dd, docData, hdd, hdoc, hmdoc, hsd, hfl, hap, hqr⟩ := mapPayload_inv rd m h
  constructor
  · intro hnone
    rw [Option.isNone_iff_eq_none] at hnone
    rw [hnone] at hap
    exact optSection_none_inv _ _ hap
  · intro ps hps
    rw [hps] at hap
    obtain ⟨a, ha, hma⟩ := optSection_some_inv _ _ _ hap
    simp only [extractApprovals, Option.map_eq_some'] at ha
    obtain ⟨as, has, haa⟩ := ha
    subst haa
    refine ⟨enumFrom 0 as, hma, ?_, ?_⟩
    · rw [enumFrom_map_fst, mapOption_length _ ps as has, List.range_eq_range']
    · intro j hj hp
      have hjas : j < as.length := by
        rw [enumFrom_length] at hj
        exact hj
      rw [enumFrom_get 0 as j hj hjas]
      exact ⟨Nat.zero_add j, mapOption_get _ ps as has j hp hjas⟩

theorem c6_approval_reindexing_witness :
    mapPayload samplePayloadApprovals = some sampleModelApprovals ∧
    (((samplePayloadApprovals.get? "ДанныеВизСогласования").isNone →
        sampleModelApprovals.approvement_data = none) ∧
     (∀ ps : List Json,
        samplePayloadApprovals.get? "ДанныеВизСогласования" = some (Json.arr ps) →
        ∃ es : List (Nat × ApprovalData),
          sampleModelApprovals.approvement_data = some es ∧
          es.map Prod.fst = List.range ps.length ∧
          ∀ (j : Nat) (hj : j < es.length) (hp : j < ps.length),
            (es.get ⟨j, hj⟩).1 = j ∧
            extractApproval (ps.get ⟨j, hp⟩) = some (es.get ⟨j, hj⟩).2)) :=
  ⟨rfl, c6_approval_reindexing samplePayloadApprovals sampleModelApprovals rfl⟩

/-- C8. Whenever the mapper succeeds on a payload whose document-metadata
section is present, the model's `document_data` holds the five metadata
fields; the four fields other than `prepared_by` require their keys to be
present (no default), `prepared_by` is the key's value when present and
the empty string when absent; and in every other extracted section every
field requires its key — `prepared_by` is the only defaulted field in the
entire mapping. -/
theorem c8_document_metadata_defaults (rd dd : Json) (m : PresentationModel)
    (h : mapPayload rd = some m) (hdd : rd.get? "ДанныеДокумента" = some dd) :
    (∃ r : DocumentData, m.document_data = some r ∧
      dd.get? "Наименование" = some r.document_name ∧
      dd.get? "НомерДокумента" = some r.document_number ∧
      dd.get? "ДатаРегистрации" = some r.registration_date ∧
      dd.get? "Зарегистрировал" = some r.registered_by ∧
      ((dd.get? "Подготовил").isNone → r.prepared_by = Json.str "") ∧
      (∀ v, dd.get? "Подготовил" = some v → r.prepared_by = v)) ∧
    (∀ sd s, rd.get? "ДанныеПодписи" = some sd → m.sign_data = some s →
      sd.get? "УстановившийПодпись" = some s.signed_by ∧
      sd.get? "ДатаПодписи" = some s.sign_date ∧
      sd.get? "ДатаНачала" = some s.start_time ∧
      sd.get? "ДатаОкончания" = some s.end_time ∧
      sd.get? "КемВыдан" = some s.provider ∧
      sd.get? "КомуВыдан" = some s.receiver ∧
      sd.get? "ОткрытыйКлюч" = some s.open_key) ∧
    (∀ fields fs, rd.get? "ДанныеФайлов" = some (Json.obj fields) →
      m.attached_files = some fs →
      ∀ kf ∈ fs, ∃ v, (kf.1, v) ∈ fields ∧
        v.get? "ПрикреплённыйФайл" = some kf.2.name ∧
        v.get? "ДатаПодписи" = some kf.2.sign_date ∧
        v.get? "УстановившийПодпись" = some kf.2.signed_by ∧
        v.get? "ПрикрепившийФайл" = some kf.2.attached_by) ∧
    (∀ items es, rd.get? "ДанныеВизСогласования" = some (Json.arr items) →
      m.approvement_data = some es →
      ∀ p ∈ es, ∃ pj ∈ items,
        pj.get? "Должность" = some p.2.role ∧
        pj.get? "Исполнитель" = some p.2.name ∧
        pj.get? "ДатаИсполнения" = some p.2.sign_date ∧
        pj.get? "РезультатСогласования" = some p.2.approvement_mark ∧
        pj.get? "РезультатВыполнения" = some p.2.comment) ∧
    (∀ q x, rd.get? "ДанныеQR" = some q → m.qr_data = some x →
      q.get? "ДвоичныеДанныеQRКода" = some x.qr_binary ∧
      q.get? "ОригиналСсылки" = some x.qr_link) := by
  obtain ⟨dd2, docData, hdd2, hdoc, hmdoc, hsd, hfl, hap, hqr⟩ := mapPayload_inv rd m h
  rw [hdd] at hdd2
  obtain rfl : dd = dd2 := Option.some.inj hdd2
  obtain ⟨hn, hnum, hrd, hrb, hprep⟩ := extractDocumentData_inv _ docData hdoc
  refine ⟨⟨docData, hmdoc, hn, hnum, hrd, hrb, ?_, ?_⟩, ?_, ?_, ?_, ?_⟩
  · intro hno
    rw [Option.isNone_iff_eq_none] at hno
    rw [hprep, hno]
    rfl
  · intro v hv
    rw [hprep, hv]
    rfl
  · intro sd s hsdp hms
    rw [hsdp] at hsd
    obtain ⟨a, ha, hma⟩ := optSection_some_inv _ _ _ hsd
    rw [hms] at hma
    obtain rfl : s = a := Option.some.inj hma
    exact extractSignData_inv sd s ha
  · intro fields fs hflds hmfs
    rw [hflds] at hfl
    obtain ⟨a, ha, hma⟩ := optSection_some_inv _ _ _ hfl
    rw [hmfs] at hma
    obtain rfl : fs = a := Option.some.inj hma
    intro kf hkf
    obtain ⟨kv, hkv, hfkv⟩ := mapOption_mem _ fields fs ha kf hkf
    simp only [Option.map_eq_some'] at hfkv
    obtain ⟨fdta, hfdta, hkf2⟩ := hfkv
    subst hkf2
    obtain ⟨h1, h2, h3, h4⟩ := extractFileData_inv kv.2 fdta hfdta
    exact ⟨kv.2, by simpa using hkv, h1, h2, h3, h4⟩
  · intro items es hitems hmes
    rw [hitems] at hap
    obtain ⟨a, ha, hma⟩ := optSection_some_inv _ _ _ hap
    rw [hmes] at hma
    obtain rfl : es = a := Option.some.inj hma
    simp only [extractApprovals, Option.map_eq_some'] at ha
    obtain ⟨as, has, haa⟩ := ha
    subst haa
    intro p hp
    have hp2 : p.2 ∈ as := enumFrom_mem_inv 0 as p hp
    obtain ⟨pj, hpj, hfpj⟩ := mapOption_mem _ items as has p.2 hp2
    obtain ⟨h1, h2, h3, h4, h5⟩ := extractApproval_inv pj p.2 hfpj
    exact ⟨pj, hpj, h1, h2, h3, h4, h5⟩
  · intro q x hq hmx
    rw [hq] at hqr
    obtain ⟨a, ha, hma⟩ := optSection_some_inv _ _ _ hqr
    rw [hmx] at hma
    obtain rfl : x = a := Option.some.inj hma
    exact extractQr_inv q x ha

theorem c8_document_metadata_defaults_witness :
    mapPayload samplePayloadDocQr = some sampleModelDocQr ∧
    samplePayloadDocQr.get? "ДанныеДокумента" = some sampleDocSection ∧
    (∃ r : DocumentData, sampleModelDocQr.document_data = some r ∧
      sampleDocSection.get? "Наименование" = some r.document_name ∧
      sampleDocSection.get? "НомерДокумента" = some r.document_number ∧
      sampleDocSection.get? "ДатаРегистрации" = some r.registration_date ∧
      sampleDocSection.get? "Зарегистрировал" = some r.registered_by ∧
      ((sampleDocSection.get? "Подготовил").isNone → r.prepared_by = Json.str "") ∧
      (∀ v, sampleDocSection.get? "Подготовил" = some v → r.prepared_by = v)) :=
  ⟨rfl, rfl, (c8_document_metadata_defaults samplePayloadDocQr sampleDocSection
    sampleModelDocQr rfl rfl).1⟩

end EcpPage
